import Mathlib

set_option maxRecDepth 20000

/-!
Shallow embedding of the portfolio repository's blog core:
the Post Registry (src/lib/blogs.ts), the Markdown Renderer
(src/lib/markdown.ts: parseMarkdown / escapeHtml), the Content Loader
(src/app/blog/[slug]/page.tsx: BlogPostPage's effect and render branches)
and the content-resolution endpoint (app/api/content/[filename]/route.ts:
GET).  Strings are modelled as List Char; the JavaScript regex passes of
parseMarkdown are modelled as explicit left-to-right scanners with the
exact match/replace semantics of String.prototype.replace with a global
regex (scan the original text once, left to right; on a match emit the
replacement and resume after the match; replacements are not rescanned
by the same pass).
-/

/-- The backtick character (code point 96), named to keep literals plain. -/
def btChar : Char := Char.ofNat 96

/-- The double-quote character (code point 34). -/
def dqChar : Char := Char.ofNat 34

/-- The single-quote character (code point 39). -/
def sqChar : Char := Char.ofNat 39

/-- JavaScript whitespace as used by String.prototype.trim and the regex
class backslash-s, restricted to the code points that can occur in this
repository's content: space, tab, newline, carriage return, vertical
tab, form feed, no-break space. -/
def isWsChar (c : Char) : Bool :=
  c = ' ' || c = '\t' || c = '\n' || c = '\r' ||
  c = Char.ofNat 11 || c = Char.ofNat 12 || c = Char.ofNat 160

/-- JavaScript String.prototype.trim: drop whitespace from both ends. -/
def jsTrim (s : List Char) : List Char :=
  ((s.dropWhile isWsChar).reverse.dropWhile isWsChar).reverse

/-- The regex word class: ASCII letters, digits and underscore. -/
def isWordChar (c : Char) : Bool := c.isAlphanum || c = '_'

/-- escapeHtml's character map (src/lib/markdown.ts lines 251-260):
ampersand, angle brackets and both quote characters become entities;
every other character is kept. -/
def escapeHtmlChar (c : Char) : List Char :=
  if c = '&' then "&amp;".data
  else if c = '<' then "&lt;".data
  else if c = '>' then "&gt;".data
  else if c = dqChar then "&quot;".data
  else if c = sqChar then "&#039;".data
  else [c]

/-- escapeHtml: replace each of the five special characters by its
entity, applied to every character of the text. -/
def escapeHtml (s : List Char) : List Char :=
  (s.map escapeHtmlChar).flatten

/-- The triple-backtick fence delimiter of a code block. -/
def fence : List Char := [btChar, btChar, btChar]

/-- First occurrence of a (nonempty) pattern inside a string: returns
the text before the match and the text after it, or none when the
pattern does not occur.  This is the lazy search performed by the
non-greedy part of the code-block regex. -/
def splitFirstSub (pat : List Char) : List Char → Option (List Char × List Char)
  | [] => none
  | c :: rest =>
    if pat.isPrefixOf (c :: rest) then some ([], (c :: rest).drop pat.length)
    else
      match splitFirstSub pat rest with
      | some (pre, post) => some (c :: pre, post)
      | none => none

/-- The replacement emitted for one fenced code block
(src/lib/markdown.ts line 202): pre/code wrapper, language class
defaulting to typescript when the tag is empty (JavaScript lang or
"typescript" with lang falsy), body HTML-escaped after trim. -/
def codeBlockRepl (lang code : List Char) : List Char :=
  "<pre class=\"bg-gray-900 text-gray-100 p-4 rounded-lg overflow-x-auto my-4\"><code class=\"language-".data
    ++ (if lang = [] then "typescript".data else lang)
    ++ "\">".data ++ escapeHtml (jsTrim code) ++ "</code></pre>".data

/-- Try to match the code-block regex at the start of the text: a fence,
an optional run of word characters (the language tag), a mandatory
newline, then a lazy body up to the next fence.  Returns the replacement
and the rest of the text after the match. -/
def tryCodeBlock (s : List Char) : Option (List Char × List Char) :=
  if fence.isPrefixOf s then
    match (s.drop 3).dropWhile isWordChar with
    | '\n' :: v =>
      match splitFirstSub fence v with
      | some (code, after) =>
        some (codeBlockRepl ((s.drop 3).takeWhile isWordChar) code, after)
      | none => none
    | _ => none
  else none

/-- Global scan for the code-block pass; fuel bounds the recursion and
is instantiated with the text length (every step consumes at least one
character). -/
def codeBlockPass : Nat → List Char → List Char
  | 0, s => s
  | _ + 1, [] => []
  | f + 1, c :: rest =>
    match tryCodeBlock (c :: rest) with
    | some (repl, after) => repl ++ codeBlockPass f after
    | none => c :: codeBlockPass f rest

/-- The code-block pass of parseMarkdown (src/lib/markdown.ts 201-203). -/
def codeBlockStage (s : List Char) : List Char := codeBlockPass s.length s

/-- The opening tag emitted for inline code (src/lib/markdown.ts 206-209). -/
def inlineCodeOpen : List Char :=
  "<code class=\"px-2 py-1 bg-gray-100 dark:bg-gray-800 rounded text-sm\">".data

/-- Global scan for the inline-code pass: a backtick, one or more
non-backtick characters, a closing backtick; the enclosed text is kept
verbatim (no escaping) inside a code element. -/
def inlinePass : Nat → List Char → List Char
  | 0, s => s
  | _ + 1, [] => []
  | f + 1, c :: rest =>
    if c = btChar then
      match rest.dropWhile (fun d => !(d = btChar)) with
      | d :: after =>
        if d = btChar then
          if rest.takeWhile (fun e => !(e = btChar)) = [] then
            c :: inlinePass f rest
          else
            inlineCodeOpen ++ rest.takeWhile (fun e => !(e = btChar))
              ++ "</code>".data ++ inlinePass f after
        else c :: inlinePass f rest
      | [] => c :: inlinePass f rest
    else c :: inlinePass f rest

/-- The inline-code pass of parseMarkdown (src/lib/markdown.ts 206-209). -/
def inlineStage (s : List Char) : List Char := inlinePass s.length s

/-- Split a string at every occurrence of a separator character,
keeping empty pieces (the behaviour of String.prototype.split with a
one-character separator, used both for the per-line anchors of the
multiline regexes and for the slash segments of a path). -/
def splitChar (sep : Char) : List Char → List (List Char)
  | [] => [[]]
  | c :: rest =>
    match splitChar sep rest with
    | [] => [[c]]
    | l :: ls => if c = sep then [] :: l :: ls else (c :: l) :: ls

/-- Apply a per-line rewrite to every newline-separated line, the
effect of a multiline-anchored regex replace. -/
def mapLines (g : List Char → List Char) (s : List Char) : List Char :=
  List.intercalate ['\n'] ((splitChar '\n' s).map g)

/-- The h3 header line rewrite (src/lib/markdown.ts 212-215): a line
starting with three hashes and a space becomes an h3 element whose id is
the raw header text. -/
def hdr3Line (l : List Char) : List Char :=
  if ("### ".data).isPrefixOf l then
    "<h3 id=\"".data ++ l.drop 4
      ++ "\" class=\"text-2xl font-bold mt-8 mb-4\">".data ++ l.drop 4 ++ "</h3>".data
  else l

/-- The h2 header line rewrite (src/lib/markdown.ts 216-219). -/
def hdr2Line (l : List Char) : List Char :=
  if ("## ".data).isPrefixOf l then
    "<h2 id=\"".data ++ l.drop 3
      ++ "\" class=\"text-3xl font-bold mt-12 mb-6\">".data ++ l.drop 3 ++ "</h2>".data
  else l

/-- The h1 header line rewrite (src/lib/markdown.ts 220-223); no id. -/
def hdr1Line (l : List Char) : List Char :=
  if ("# ".data).isPrefixOf l then
    "<h1 class=\"text-4xl font-bold mt-8 mb-6\">".data ++ l.drop 2 ++ "</h1>".data
  else l

/-- Global scan for the bold pass (src/lib/markdown.ts 226-229): two
asterisks, one or more non-asterisk characters, two asterisks. -/
def boldPass : Nat → List Char → List Char
  | 0, s => s
  | _ + 1, [] => []
  | f + 1, c :: rest =>
    if c = '*' then
      match rest with
      | d :: t =>
        if d = '*' then
          match t.dropWhile (fun e => !(e = '*')) with
          | e1 :: e2 :: after =>
            if e1 = '*' && e2 = '*' then
              if t.takeWhile (fun e => !(e = '*')) = [] then
                c :: boldPass f rest
              else
                "<strong class=\"font-bold\">".data
                  ++ t.takeWhile (fun e => !(e = '*'))
                  ++ "</strong>".data ++ boldPass f after
            else c :: boldPass f rest
          | _ => c :: boldPass f rest
        else c :: boldPass f rest
      | [] => c :: boldPass f rest
    else c :: boldPass f rest

/-- The bold pass of parseMarkdown. -/
def boldStage (s : List Char) : List Char := boldPass s.length s

/-- The list-item line rewrite (src/lib/markdown.ts 232): a line
starting with dash-space becomes a li element. -/
def liLine (l : List Char) : List Char :=
  if ("- ".data).isPrefixOf l then
    "<li class=\"ml-4\">".data ++ l.drop 2 ++ "</li>".data
  else l

/-- Last position inside a string at which a (nonempty) pattern occurs,
the greedy backtracking of dot-star before a literal. -/
def lastSubPos (pat : List Char) : List Char → Option Nat
  | [] => none
  | c :: rest =>
    match lastSubPos pat rest with
    | some j => some (j + 1)
    | none => if pat.isPrefixOf (c :: rest) then some 0 else none

/-- The ul wrapper opening tag (src/lib/markdown.ts 233-236). -/
def ulOpen : List Char := "<ul class=\"list-disc list-inside space-y-2 my-4\">".data

/-- One repetition of the ul-wrapping group: a li opening, same-line
text up to the last li closing on that line, then any run of
whitespace.  Returns the number of characters consumed. -/
def liRep (s : List Char) : Option Nat :=
  if ("<li".data).isPrefixOf s then
    match lastSubPos ("</li>".data) ((s.drop 3).takeWhile (fun d => !(d = '\n'))) with
    | some j =>
      let core := 3 + j + 5
      some (core + ((s.drop core).takeWhile isWsChar).length)
    | none => none
  else none

/-- One or more repetitions of the ul-wrapping group, greedy. -/
def liRun : Nat → List Char → Option Nat
  | 0, _ => none
  | f + 1, s =>
    match liRep s with
    | none => none
    | some n =>
      match liRun f (s.drop n) with
      | some m => some (n + m)
      | none => some n

/-- Global scan for the ul-wrapping pass: a maximal run of li groups is
wrapped, whole, in a single ul element. -/
def liWrapGo : Nat → List Char → List Char
  | 0, s => s
  | _ + 1, [] => []
  | f + 1, c :: rest =>
    match liRun (c :: rest).length (c :: rest) with
    | some n =>
      ulOpen ++ (c :: rest).take n ++ "</ul>".data ++ liWrapGo f ((c :: rest).drop n)
    | none => c :: liWrapGo f rest

/-- The ul-wrapping pass of parseMarkdown (src/lib/markdown.ts 233-236). -/
def liWrapStage (s : List Char) : List Char := liWrapGo s.length s

/-- Split at every non-overlapping occurrence of a (nonempty) pattern,
left to right: String.prototype.split with a string separator. -/
def splitOnSub (pat : List Char) : Nat → List Char → List (List Char)
  | _, [] => [[]]
  | 0, s => [s]
  | f + 1, c :: rest =>
    if pat.isPrefixOf (c :: rest) then
      [] :: splitOnSub pat f ((c :: rest).drop pat.length)
    else
      match splitOnSub pat f rest with
      | [] => [[c]]
      | l :: ls => (c :: l) :: ls

/-- The per-paragraph rewrite (src/lib/markdown.ts 239-246): a block
whose trimmed form starts with an angle bracket is kept; a blank block
becomes empty; anything else is wrapped in a div paragraph wrapper. -/
def paraWrap (p : List Char) : List Char :=
  match jsTrim p with
  | '<' :: _ => p
  | [] => []
  | _ => "<div class=\"mb-4 leading-relaxed\">".data ++ p ++ "</div>".data

/-- The paragraph pass: split on blank lines (two newlines), rewrite
each block, join with single newlines. -/
def paraStage (s : List Char) : List Char :=
  List.intercalate ['\n'] ((splitOnSub "\n\n".data s.length s).map paraWrap)

/-- parseMarkdown (src/lib/markdown.ts 195-249): empty input short
circuits to empty output; otherwise the seven regex passes run in
source order: fenced code blocks, inline code, h3, h2, h1 headers,
bold, list items, ul wrapping, paragraphs. -/
def parseMarkdown (s : String) : String :=
  if s = "" then ""
  else
    let s1 := codeBlockStage s.data
    let s2 := inlineStage s1
    let s3 := mapLines hdr3Line s2
    let s4 := mapLines hdr2Line s3
    let s5 := mapLines hdr1Line s4
    let s6 := boldStage s5
    let s7 := mapLines liLine s6
    let s8 := liWrapStage s7
    ⟨paraStage s8⟩

/-- Substring test (used only to state properties of outputs). -/
def containsSub (pat : List Char) : List Char → Bool
  | [] => pat.isPrefixOf []
  | c :: rest => pat.isPrefixOf (c :: rest) || containsSub pat rest

/-- Substring test on strings. -/
def strContains (pat s : String) : Bool := containsSub pat.data s.data

/-- Number of positions of the text at which the pattern occurs. -/
def countSub (pat : List Char) : List Char → Nat
  | [] => 0
  | c :: rest => (if pat.isPrefixOf (c :: rest) then 1 else 0) + countSub pat rest

/-- Occurrence count on strings. -/
def strCount (pat s : String) : Nat := countSub pat.data s.data

/-- A post-metadata record (src/lib/blogs.ts, interface Blog): slug is
the lookup key; content is an optional inline body; contentFile an
optional external body resource name. -/
structure Blog where
  id : String
  title : String
  description : String
  category : String
  readTime : String
  date : String
  views : String
  comments : Nat
  tags : List String
  slug : String
  content : Option String
  contentFile : Option String
deriving DecidableEq

/-- getBlogBySlug (src/lib/blogs.ts line 280-282): a strict-equality
linear scan of the registry; the registry contents are the static data
source, taken here as a parameter. -/
def getBlogBySlug (blogs : List Blog) (slug : String) : Option Blog :=
  blogs.find? (fun b => b.slug == slug)

/-- getAllBlogSlugs (src/lib/blogs.ts line 284-286). -/
def getAllBlogSlugs (blogs : List Blog) : List String :=
  blogs.map (fun b => b.slug)

/-- Outcome of the awaited fetch-then-json chain of the loader effect:
success carries the (possibly absent) content field of the parsed JSON
body; failure is a rejection caught by the catch handler. -/
inductive FetchOutcome where
  | success (content : Option String)
  | failure (error : String)
deriving DecidableEq

/-- The loader state after the effect has settled (BlogPostPage,
src/app/blog/[slug]/page.tsx lines 21-40): the content state, the
loading flag, the list of content files fetched, and the errors logged
by the catch handler. -/
structure LoaderResult where
  content : Option String
  loading : Bool
  fetched : List String
  logged : List String
deriving DecidableEq

/-- JavaScript `x || null` on an optional string: an absent or empty
(falsy) string collapses to the absent state. -/
def jsOrNull (o : Option String) : Option String :=
  match o with
  | some c => if c = "" then none else some c
  | none => none

/-- The content-loading effect of BlogPostPage (lines 24-40): when the
record has a contentFile, one fetch keyed by the file name is issued;
the response's parsed content field becomes the state on success, and a
rejection is logged, leaving the content state at its initial null.
Without a contentFile the state becomes the record's inline content
coalesced through `|| null`. -/
def loadContent (blog : Option Blog) (respond : String → FetchOutcome) : LoaderResult :=
  match blog with
  | some b =>
    match b.contentFile with
    | some file =>
      match respond file with
      | .success c => ⟨c, false, [file], []⟩
      | .failure e => ⟨none, false, [file], ["Error loading content: " ++ e]⟩
    | none => ⟨jsOrNull b.content, false, [], []⟩
  | none => ⟨none, false, [], []⟩

/-- What the page shows (BlogPostPage lines 42-168): the not-found view
when the slug matched no record, the spinner while loading, the parsed
markdown once a truthy content string is present, and the coming-soon
placeholder otherwise. -/
inductive View where
  | notFound
  | spinner
  | article (html : String)
  | comingSoon
deriving DecidableEq

/-- The render branch of BlogPostPage (lines 42, 123-168). -/
def renderView (blog : Option Blog) (st : LoaderResult) : View :=
  match blog with
  | none => .notFound
  | some _ =>
    if st.loading then .spinner
    else
      match st.content with
      | some c => if c = "" then .comingSoon else .article (parseMarkdown c)
      | none => .comingSoon

/-- POSIX path normalization over slash-separated segments, as
performed by path.join on an absolute base: empty and dot segments
vanish, a dot-dot segment removes the segment before it (and clips at
the root). -/
def normSegs (segs : List String) : List String :=
  segs.foldl
    (fun acc seg =>
      if seg = "" || seg = "." then acc
      else if seg = ".." then acc.dropLast
      else acc ++ [seg])
    []

/-- The path built by the GET handler
(app/api/content/[filename]/route.ts lines 353-360):
path.join(process.cwd(), "app", "data", "content", filename), with the
working directory given as its slash segments. -/
def resolveContentPath (cwd : List String) (filename : String) : List String :=
  normSegs (cwd ++ ["app", "data", "content"] ++
    (splitChar '/' filename.data).map (fun l => String.mk l))

/-- The segments of the designated content directory. -/
def contentDirSegs (cwd : List String) : List String :=
  cwd ++ ["app", "data", "content"]

/-- The JSON response of the GET handler: a status, an optional content
field and an optional error field. -/
structure ApiResponse where
  status : Nat
  content : Option String
  error : Option String
deriving DecidableEq

/-- The GET handler (app/api/content/[filename]/route.ts lines
348-367): read the joined path through the file system (modelled as a
partial map from path segments to text); a successful read returns a
200 body whose content field is the file text, any failure is caught
and returns a 404 body with only an error field. -/
def contentGet (fsRead : List String → Option String) (cwd : List String)
    (filename : String) : ApiResponse :=
  match fsRead (resolveContentPath cwd filename) with
  | some text => ⟨200, some text, none⟩
  | none => ⟨404, none, some "Content not found"⟩

/-- res.json() on a response of the endpoint: both the 200 and the 404
bodies are JSON, so parsing succeeds and yields the (possibly absent)
content field. -/
def outcomeOfResponse (r : ApiResponse) : FetchOutcome :=
  .success r.content

/-! Helper lemmas about the scanners. -/

theorem fenceIsSourceLiteral : fence = "```".data := by decide

theorem isPrefixOfAppend (l r : List Char) : l.isPrefixOf (l ++ r) = true := by
  induction l with
  | nil => simp [List.isPrefixOf]
  | cons a as ih => simp [List.isPrefixOf, ih]

theorem isPrefixOfConsNe (a c : Char) (p r : List Char) (h : c ≠ a) :
    (a :: p).isPrefixOf (c :: r) = false := by
  simp [List.isPrefixOf]
  intro hac
  exact absurd hac.symm h

theorem takeWhileAllAppend (p : Char → Bool) (l : List Char) (d : Char) (r : List Char)
    (hl : ∀ c ∈ l, p c = true) (hd : p d = false) :
    (l ++ d :: r).takeWhile p = l := by
  induction l with
  | nil => simp [List.takeWhile, hd]
  | cons a as ih =>
    have ha : p a = true := hl a (by simp)
    simp only [List.cons_append, List.takeWhile_cons, ha, if_true]
    rw [ih (fun c hc => hl c (by simp [hc]))]

theorem dropWhileAllAppend (p : Char → Bool) (l : List Char) (d : Char) (r : List Char)
    (hl : ∀ c ∈ l, p c = true) (hd : p d = false) :
    (l ++ d :: r).dropWhile p = d :: r := by
  induction l with
  | nil => simp [List.dropWhile, hd]
  | cons a as ih =>
    have ha : p a = true := hl a (by simp)
    simp only [List.cons_append, List.dropWhile_cons, ha, if_true]
    exact ih (fun c hc => hl c (by simp [hc]))

theorem splitFirstSubAppend (p0 : Char) (ps code tail : List Char)
    (h : ∀ c ∈ code, c ≠ p0) :
    splitFirstSub (p0 :: ps) (code ++ (p0 :: ps) ++ tail) = some (code, tail) := by
  induction code with
  | nil =>
    show splitFirstSub (p0 :: ps) (p0 :: (ps ++ tail)) = some ([], tail)
    rw [splitFirstSub]
    have hpre : (p0 :: ps).isPrefixOf (p0 :: (ps ++ tail)) = true :=
      isPrefixOfAppend (p0 :: ps) tail
    rw [if_pos hpre]
    have hdrop : (p0 :: (ps ++ tail)).drop (p0 :: ps).length = tail := by
      show (ps ++ tail).drop ps.length = tail
      exact List.drop_left ps tail
    rw [hdrop]
  | cons c cs ih =>
    have hc : c ≠ p0 := h c (by simp)
    show splitFirstSub (p0 :: ps) (c :: (cs ++ (p0 :: ps) ++ tail)) = some (c :: cs, tail)
    rw [splitFirstSub]
    rw [if_neg (by simp [isPrefixOfConsNe p0 c ps _ hc])]
    rw [ih (fun x hx => h x (by simp [hx]))]

theorem codeBlockPassNil (f : Nat) : codeBlockPass f [] = [] := by
  cases f <;> rfl

theorem inlinePassNil (f : Nat) : inlinePass f [] = [] := by
  cases f <;> rfl

/-- The code-block regex matches at the head of a well-formed fenced
block: an optional word-character language tag, a newline, a body free
of backticks, a closing fence. -/
theorem tryCodeBlockAppend (lang code : List Char)
    (hlang : ∀ c ∈ lang, isWordChar c = true) (hcode : ∀ c ∈ code, c ≠ btChar) :
    tryCodeBlock (fence ++ (lang ++ '\n' :: (code ++ fence))) =
      some (codeBlockRepl lang code, []) := by
  have hnl : isWordChar '\n' = false := by decide
  have hdrop : (fence ++ (lang ++ '\n' :: (code ++ fence))).drop 3
      = lang ++ '\n' :: (code ++ fence) := List.drop_left fence _
  have hdw := dropWhileAllAppend isWordChar lang '\n' (code ++ fence) hlang hnl
  have htw := takeWhileAllAppend isWordChar lang '\n' (code ++ fence) hlang hnl
  have hsplit : splitFirstSub fence (code ++ fence) = some (code, []) := by
    have h := splitFirstSubAppend btChar [btChar, btChar] code [] hcode
    simpa [fence] using h
  simp [tryCodeBlock, isPrefixOfAppend, hdrop, hdw, htw, hsplit]

/-- When the whole text is one regex match, the code-block pass returns
exactly the replacement. -/
theorem codeBlockStageOfTry (c : Char) (rest repl : List Char)
    (h : tryCodeBlock (c :: rest) = some (repl, [])) :
    codeBlockStage (c :: rest) = repl := by
  show codeBlockPass (rest.length + 1) (c :: rest) = repl
  rw [codeBlockPass, h]
  simp [codeBlockPassNil]

/-- The code-block pass on a single well-formed fenced block. -/
theorem codeBlockStageAppend (lang code : List Char)
    (hlang : ∀ c ∈ lang, isWordChar c = true) (hcode : ∀ c ∈ code, c ≠ btChar) :
    codeBlockStage (fence ++ (lang ++ '\n' :: (code ++ fence))) =
      codeBlockRepl lang code := by
  have htry := tryCodeBlockAppend lang code hlang hcode
  have hform : fence ++ (lang ++ '\n' :: (code ++ fence))
      = btChar :: ([btChar, btChar] ++ (lang ++ '\n' :: (code ++ fence))) := rfl
  rw [hform] at htry ⊢
  exact codeBlockStageOfTry _ _ _ htry

/-- The inline-code pass on a single well-formed inline span: the
content is reproduced verbatim inside the code element. -/
theorem inlineStageAppend (content : List Char) (hne : content ≠ [])
    (hcontent : ∀ c ∈ content, c ≠ btChar) :
    inlineStage (btChar :: (content ++ [btChar])) =
      inlineCodeOpen ++ content ++ "</code>".data := by
  have hp : ∀ c ∈ content, (!(c = btChar)) = true := by
    intro c hc
    simp [hcontent c hc]
  have hbt : (!(btChar = btChar)) = false := by simp
  have hdw := dropWhileAllAppend (fun d => !(d = btChar)) content btChar [] hp hbt
  have htw := takeWhileAllAppend (fun d => !(d = btChar)) content btChar [] hp hbt
  show inlinePass ((content ++ [btChar]).length + 1) (btChar :: (content ++ [btChar])) = _
  simp [inlinePass, hdw, htw, hne, inlinePassNil]

/-! Claim theorems. -/

/-- C2: a fenced code block (triple-backtick delimited, optional word
language tag) has its enclosed text HTML-escaped and wrapped in a
pre/code element whose language class defaults to typescript; in
particular a block containing a script tag renders with the escaped
entity form inside the pre/code element and never the raw tag. -/
theorem fencedBlockEscapes (lang code : List Char)
    (hlang : ∀ c ∈ lang, isWordChar c = true) (hcode : ∀ c ∈ code, c ≠ btChar) :
    codeBlockStage (fence ++ (lang ++ '\n' :: (code ++ fence))) =
      "<pre class=\"bg-gray-900 text-gray-100 p-4 rounded-lg overflow-x-auto my-4\"><code class=\"language-".data
        ++ (if lang = [] then "typescript".data else lang)
        ++ "\">".data ++ escapeHtml (jsTrim code) ++ "</code></pre>".data ∧
    parseMarkdown "```\n<script>alert(1)</script>\n```" =
      "<pre class=\"bg-gray-900 text-gray-100 p-4 rounded-lg overflow-x-auto my-4\"><code class=\"language-typescript\">&lt;script&gt;alert(1)&lt;/script&gt;</code></pre>" ∧
    strContains "<code class=\"language-typescript\">&lt;script&gt;alert(1)&lt;/script&gt;</code>"
        (parseMarkdown "```\n<script>alert(1)</script>\n```") = true ∧
    strContains "<script>" (parseMarkdown "```\n<script>alert(1)</script>\n```") = false :=
  ⟨codeBlockStageAppend lang code hlang hcode, by decide, by decide, by decide⟩

/-- Witness for C2 at the concrete block with language tag js and body
a&b. -/
theorem fencedBlockEscapesWitness :
    codeBlockStage (fence ++ ("js".data ++ '\n' :: ("a&b".data ++ fence))) =
      "<pre class=\"bg-gray-900 text-gray-100 p-4 rounded-lg overflow-x-auto my-4\"><code class=\"language-".data
        ++ (if ("js".data : List Char) = [] then "typescript".data else "js".data)
        ++ "\">".data ++ escapeHtml (jsTrim "a&b".data) ++ "</code></pre>".data ∧
    parseMarkdown "```\n<script>alert(1)</script>\n```" =
      "<pre class=\"bg-gray-900 text-gray-100 p-4 rounded-lg overflow-x-auto my-4\"><code class=\"language-typescript\">&lt;script&gt;alert(1)&lt;/script&gt;</code></pre>" ∧
    strContains "<code class=\"language-typescript\">&lt;script&gt;alert(1)&lt;/script&gt;</code>"
        (parseMarkdown "```\n<script>alert(1)</script>\n```") = true ∧
    strContains "<script>" (parseMarkdown "```\n<script>alert(1)</script>\n```") = false :=
  fencedBlockEscapes "js".data "a&b".data (by decide) (by decide)

/-- C10: the enclosed text of a fenced block is trimmed of leading and
trailing whitespace before being escaped, so the text inside the emitted
pre/code element is the trimmed form, not the raw enclosed text. -/
theorem fencedBlockTrims (code : List Char) (hcode : ∀ c ∈ code, c ≠ btChar) :
    codeBlockStage (fence ++ ([] ++ '\n' :: (code ++ fence))) =
      "<pre class=\"bg-gray-900 text-gray-100 p-4 rounded-lg overflow-x-auto my-4\"><code class=\"language-".data
        ++ "typescript".data
        ++ "\">".data ++ escapeHtml (jsTrim code) ++ "</code></pre>".data ∧
    parseMarkdown "```\n\n  let x = 1;  \n\n```" =
      "<pre class=\"bg-gray-900 text-gray-100 p-4 rounded-lg overflow-x-auto my-4\"><code class=\"language-typescript\">let x = 1;</code></pre>" ∧
    jsTrim "\n\n  let x = 1;  \n\n".data = "let x = 1;".data ∧
    strContains "\n  let x = 1;  "
        (parseMarkdown "```\n\n  let x = 1;  \n\n```") = false :=
  ⟨codeBlockStageAppend [] code (by intro c hc; cases hc) hcode,
   by decide, by decide, by decide⟩

/-- Witness for C10 at a body with whitespace on both ends. -/
theorem fencedBlockTrimsWitness :
    codeBlockStage (fence ++ ([] ++ '\n' :: ("  x = y  \n".data ++ fence))) =
      "<pre class=\"bg-gray-900 text-gray-100 p-4 rounded-lg overflow-x-auto my-4\"><code class=\"language-".data
        ++ "typescript".data
        ++ "\">".data ++ escapeHtml (jsTrim "  x = y  \n".data) ++ "</code></pre>".data ∧
    parseMarkdown "```\n\n  let x = 1;  \n\n```" =
      "<pre class=\"bg-gray-900 text-gray-100 p-4 rounded-lg overflow-x-auto my-4\"><code class=\"language-typescript\">let x = 1;</code></pre>" ∧
    jsTrim "\n\n  let x = 1;  \n\n".data = "let x = 1;".data ∧
    strContains "\n  let x = 1;  "
        (parseMarkdown "```\n\n  let x = 1;  \n\n```") = false :=
  fencedBlockTrims "  x = y  \n".data (by decide)

/-- C5: inline code (single-backtick delimited) is wrapped in a code
element with its contents left verbatim, not HTML-escaped; on an input
whose span contains angle brackets and ampersands those characters
appear raw in the output, unlike in the fenced-block pass. -/
theorem inlineCodeNotEscaped (content : List Char) (hne : content ≠ [])
    (hcontent : ∀ c ∈ content, c ≠ btChar) :
    inlineStage (btChar :: (content ++ [btChar])) =
      "<code class=\"px-2 py-1 bg-gray-100 dark:bg-gray-800 rounded text-sm\">".data
        ++ content ++ "</code>".data ∧
    parseMarkdown (String.mk (btChar :: ("a < b & c".data ++ [btChar]))) =
      "<code class=\"px-2 py-1 bg-gray-100 dark:bg-gray-800 rounded text-sm\">a < b & c</code>" ∧
    strContains "a < b & c"
      (parseMarkdown (String.mk (btChar :: ("a < b & c".data ++ [btChar])))) = true ∧
    strContains "&lt;"
      (parseMarkdown (String.mk (btChar :: ("a < b & c".data ++ [btChar])))) = false ∧
    strContains "&amp;"
      (parseMarkdown (String.mk (btChar :: ("a < b & c".data ++ [btChar])))) = false :=
  ⟨inlineStageAppend content hne hcontent, by decide, by decide, by decide, by decide⟩

/-- Witness for C5 at the concrete span x<y. -/
theorem inlineCodeNotEscapedWitness :
    inlineStage (btChar :: ("x<y".data ++ [btChar])) =
      "<code class=\"px-2 py-1 bg-gray-100 dark:bg-gray-800 rounded text-sm\">".data
        ++ "x<y".data ++ "</code>".data ∧
    parseMarkdown (String.mk (btChar :: ("a < b & c".data ++ [btChar]))) =
      "<code class=\"px-2 py-1 bg-gray-100 dark:bg-gray-800 rounded text-sm\">a < b & c</code>" ∧
    strContains "a < b & c"
      (parseMarkdown (String.mk (btChar :: ("a < b & c".data ++ [btChar])))) = true ∧
    strContains "&lt;"
      (parseMarkdown (String.mk (btChar :: ("a < b & c".data ++ [btChar])))) = false ∧
    strContains "&amp;"
      (parseMarkdown (String.mk (btChar :: ("a < b & c".data ++ [btChar])))) = false :=
  inlineCodeNotEscaped "x<y".data (by decide) (by decide)

/-- C6: a line of two hashes and a space renders to an h2 element whose
id attribute is the raw header text and whose body is that text; the
three-hash form is checked before the two-hash form, which is checked
before the one-hash form. -/
theorem headerRendering :
    parseMarkdown "## Setup" =
      "<h2 id=\"Setup\" class=\"text-3xl font-bold mt-12 mb-6\">Setup</h2>" ∧
    strContains "<h2 id=\"Setup\"" (parseMarkdown "## Setup") = true ∧
    strContains ">Setup</h2>" (parseMarkdown "## Setup") = true ∧
    parseMarkdown "### Deep" =
      "<h3 id=\"Deep\" class=\"text-2xl font-bold mt-8 mb-4\">Deep</h3>" ∧
    parseMarkdown "# Top" =
      "<h1 class=\"text-4xl font-bold mt-8 mb-6\">Top</h1>" :=
  ⟨by decide, by decide, by decide, by decide, by decide⟩

/-- C7: three consecutive dash-space lines render to exactly one ul
element wrapping exactly three li elements with texts a, b, c in that
order. -/
theorem listRendering :
    parseMarkdown "- a\n- b\n- c" =
      "<ul class=\"list-disc list-inside space-y-2 my-4\"><li class=\"ml-4\">a</li>\n<li class=\"ml-4\">b</li>\n<li class=\"ml-4\">c</li></ul>" ∧
    strCount "<ul" (parseMarkdown "- a\n- b\n- c") = 1 ∧
    strCount "</ul>" (parseMarkdown "- a\n- b\n- c") = 1 ∧
    strCount "<li" (parseMarkdown "- a\n- b\n- c") = 3 ∧
    strCount "</li>" (parseMarkdown "- a\n- b\n- c") = 3 :=
  ⟨by decide, by decide, by decide, by decide, by decide⟩

/-- Under slug uniqueness, the strict-equality scan finds exactly the
member bearing the slug. -/
theorem findEqOfMemUnique : ∀ (blogs : List Blog) (s : String),
    (blogs.map Blog.slug).Nodup →
    ∀ b ∈ blogs, b.slug = s → getBlogBySlug blogs s = some b := by
  intro blogs s
  induction blogs with
  | nil =>
    intro _ b hb
    cases hb
  | cons x xs ih =>
    intro hnd b hb hbs
    rw [List.map_cons, List.nodup_cons] at hnd
    by_cases hx : x.slug = s
    · have hfind : getBlogBySlug (x :: xs) s = some x := by
        simp [getBlogBySlug, List.find?_cons_of_pos, hx]
      rcases List.mem_cons.mp hb with rfl | hbxs
      · exact hfind
      · exfalso
        apply hnd.1
        have hbx : x.slug = b.slug := by rw [hbs, hx]
        rw [hbx]
        exact List.mem_map_of_mem Blog.slug hbxs
    · have hne : (x.slug == s) = false := by simp [hx]
      rcases List.mem_cons.mp hb with rfl | hbxs
      · exact absurd hbs hx
      · have hxs := ih hnd.2 b hbxs hbs
        simp only [getBlogBySlug, List.find?] at hxs ⊢
        rw [hne]
        exact hxs

/-- C1: for every slug present in the registry (whose slugs are unique,
the registry invariant), getBlogBySlug returns that exact record by
strict string equality; for a string matching no record's slug it
returns the not-found value rather than throwing. -/
theorem slugLookupSpec (blogs : List Blog) (s : String)
    (hnd : (blogs.map Blog.slug).Nodup) :
    (∀ b ∈ blogs, b.slug = s → getBlogBySlug blogs s = some b) ∧
    ((∀ b ∈ blogs, b.slug ≠ s) → getBlogBySlug blogs s = none) := by
  constructor
  · intro b hb hbs
    exact findEqOfMemUnique blogs s hnd b hb hbs
  · intro h
    rw [getBlogBySlug, List.find?_eq_none]
    intro x hx
    simp [h x hx]

/-- A concrete registry record with an external content file. -/
def blogA : Blog :=
  ⟨"1", "React Performance", "d", "Web", "5 min", "2025-01-01", "100", 3,
    ["react"], "react-performance", none, some "react-performance.md"⟩

/-- A concrete registry record with an inline body. -/
def blogB : Blog :=
  ⟨"2", "TypeScript Tips", "d", "Web", "6 min", "2025-02-01", "200", 1,
    ["ts"], "typescript-tips", some "**bold**", none⟩

/-- Witness for C1: lookup hits on an exact slug and misses on a
case-variant slug present in no record. -/
theorem slugLookupSpecWitness :
    getBlogBySlug [blogA, blogB] "typescript-tips" = some blogB ∧
    getBlogBySlug [blogA, blogB] "Typescript-Tips" = none := by
  refine ⟨?_, ?_⟩
  · exact (slugLookupSpec [blogA, blogB] "typescript-tips" (by decide)).1 blogB
      (by decide) rfl
  · exact (slugLookupSpec [blogA, blogB] "Typescript-Tips" (by decide)).2 (by decide)

/-- A record whose inline content is the empty string and which names
no content file. -/
def blogEmptyInline : Blog :=
  ⟨"3", "Empty", "d", "Web", "1 min", "2025-03-01", "0", 0, [],
    "empty-post", some "", none⟩

/-- A responder standing for an endpoint returning a body with no
content field. -/
def respondNone : String → FetchOutcome := fun _ => .success none

/-- Counterexample to C3 as stated: a record whose content field is
present but empty does not make that content the resolved body — the
JavaScript or-null coalescing collapses it to the absent state. -/
theorem loaderInlineCex :
    blogEmptyInline.contentFile = none ∧
    blogEmptyInline.content = some "" ∧
    (loadContent (some blogEmptyInline) respondNone).content ≠ some "" ∧
    (loadContent (some blogEmptyInline) respondNone).content = none := by
  decide

/-- C3 (amended): with a contentFile exactly one fetch keyed by that
file is issued and a successful response's content field becomes the
body; without a contentFile a present non-empty inline content becomes
the body with no fetch; with no contentFile and no (or empty) inline
content the loader resolves to the absent state with no fetch and the
page renders the coming-soon placeholder. -/
theorem loaderSpecAmended (b : Blog) (respond : String → FetchOutcome) :
    (∀ file, b.contentFile = some file →
      (loadContent (some b) respond).fetched = [file] ∧
      (∀ c, respond file = .success c →
        (loadContent (some b) respond).content = c)) ∧
    (∀ c, b.contentFile = none → b.content = some c → c ≠ "" →
      (loadContent (some b) respond).content = some c ∧
      (loadContent (some b) respond).fetched = []) ∧
    (b.contentFile = none → (b.content = none ∨ b.content = some "") →
      (loadContent (some b) respond).content = none ∧
      (loadContent (some b) respond).fetched = [] ∧
      renderView (some b) (loadContent (some b) respond) = View.comingSoon) := by
  refine ⟨?_, ?_, ?_⟩
  · intro file hf
    constructor
    · cases hr : respond file <;> simp [loadContent, hf, hr]
    · intro c hr
      simp [loadContent, hf, hr]
  · intro c hf hc hne
    simp [loadContent, hf, hc, jsOrNull, hne]
  · intro hf hc
    rcases hc with hc | hc <;>
      simp [loadContent, hf, hc, jsOrNull, renderView]

/-- A record naming a content file. -/
def blogWithFile : Blog :=
  ⟨"4", "File Post", "d", "Web", "2 min", "2025-04-01", "10", 2, [],
    "file-post", none, some "post.md"⟩

/-- A record with neither content nor contentFile. -/
def blogBare : Blog :=
  ⟨"5", "Bare Post", "d", "Web", "2 min", "2025-05-01", "10", 2, [],
    "bare-post", none, none⟩

/-- A responder standing for an endpoint answering every file with a
markdown title body. -/
def respondOk : String → FetchOutcome := fun _ => .success (some "# Title")

/-- Witness for C3 (amended) at three concrete records: fetched file
and resolved body, inline body without fetch, and the bare record's
coming-soon placeholder. -/
theorem loaderSpecAmendedWitness :
    (loadContent (some blogWithFile) respondOk).fetched = ["post.md"] ∧
    (loadContent (some blogWithFile) respondOk).content = some "# Title" ∧
    (loadContent (some blogB) respondOk).content = some "**bold**" ∧
    (loadContent (some blogB) respondOk).fetched = [] ∧
    (loadContent (some blogBare) respondOk).content = none ∧
    (loadContent (some blogBare) respondOk).fetched = [] ∧
    renderView (some blogBare) (loadContent (some blogBare) respondOk) =
      View.comingSoon := by
  obtain ⟨hfile, hinline, hbare⟩ := loaderSpecAmended blogWithFile respondOk
  obtain ⟨hfileB, hinlineB, hbareB⟩ := loaderSpecAmended blogB respondOk
  obtain ⟨hfileC, hinlineC, hbareC⟩ := loaderSpecAmended blogBare respondOk
  refine ⟨(hfile "post.md" rfl).1, (hfile "post.md" rfl).2 (some "# Title") rfl,
    (hinlineB "**bold**" rfl rfl (by decide)).1,
    (hinlineB "**bold**" rfl rfl (by decide)).2,
    (hbareC rfl (Or.inl rfl)).1, (hbareC rfl (Or.inl rfl)).2.1,
    (hbareC rfl (Or.inl rfl)).2.2⟩

/-- C8: when the content fetch fails the loader logs the underlying
error, issues no retry (the single fetch stays the only one), leaves
the body absent, and the page shows the coming-soon placeholder with
no trace of the error. -/
theorem loaderFailureSpec (b : Blog) (file e : String)
    (respond : String → FetchOutcome)
    (hf : b.contentFile = some file) (hr : respond file = .failure e) :
    (loadContent (some b) respond).logged = ["Error loading content: " ++ e] ∧
    (loadContent (some b) respond).content = none ∧
    (loadContent (some b) respond).fetched = [file] ∧
    renderView (some b) (loadContent (some b) respond) = View.comingSoon := by
  simp [loadContent, hf, hr, renderView]

/-- A responder standing for a rejected fetch. -/
def respondFail : String → FetchOutcome := fun _ => .failure "network down"

/-- Witness for C8 at a concrete failing fetch. -/
theorem loaderFailureSpecWitness :
    (loadContent (some blogWithFile) respondFail).logged =
      ["Error loading content: " ++ "network down"] ∧
    (loadContent (some blogWithFile) respondFail).content = none ∧
    (loadContent (some blogWithFile) respondFail).fetched = ["post.md"] ∧
    renderView (some blogWithFile) (loadContent (some blogWithFile) respondFail) =
      View.comingSoon :=
  loaderFailureSpec blogWithFile "post.md" "network down" respondFail rfl rfl

/-- C9: when the endpoint answers its not-found signal (a 404 JSON body
with no content field), the loader goes through its success path — the
JSON parse succeeds, the content field is absent, nothing is logged by
the catch handler — and the page shows the coming-soon placeholder. -/
theorem loader404Spec (b : Blog) (file : String)
    (fsRead : List String → Option String) (cwd : List String)
    (hf : b.contentFile = some file)
    (hr : fsRead (resolveContentPath cwd file) = none) :
    (contentGet fsRead cwd file).status = 404 ∧
    (contentGet fsRead cwd file).content = none ∧
    (loadContent (some b)
      (fun f => outcomeOfResponse (contentGet fsRead cwd f))).content = none ∧
    (loadContent (some b)
      (fun f => outcomeOfResponse (contentGet fsRead cwd f))).logged = [] ∧
    renderView (some b)
      (loadContent (some b)
        (fun f => outcomeOfResponse (contentGet fsRead cwd f))) =
      View.comingSoon := by
  simp [contentGet, hr, loadContent, hf, outcomeOfResponse, renderView]

/-- A file system with no files. -/
def fsEmpty : List String → Option String := fun _ => none

/-- Witness for C9 at a concrete record and empty file system. -/
theorem loader404SpecWitness :
    (contentGet fsEmpty ["srv"] "post.md").status = 404 ∧
    (contentGet fsEmpty ["srv"] "post.md").content = none ∧
    (loadContent (some blogWithFile)
      (fun f => outcomeOfResponse (contentGet fsEmpty ["srv"] f))).content = none ∧
    (loadContent (some blogWithFile)
      (fun f => outcomeOfResponse (contentGet fsEmpty ["srv"] f))).logged = [] ∧
    renderView (some blogWithFile)
      (loadContent (some blogWithFile)
        (fun f => outcomeOfResponse (contentGet fsEmpty ["srv"] f))) =
      View.comingSoon :=
  loader404Spec blogWithFile "post.md" fsEmpty ["srv"] rfl rfl

/-- C4 evidence: the GET handler performs no validation of the filename
parameter, so a filename with dot-dot segments resolves outside the
designated content directory and the handler serves that outside file:
the claimed simple-filename enforcement is absent from the code. -/
theorem contentPathTraversal :
    resolveContentPath ["home", "user"] "../../../../../etc/passwd" =
      ["etc", "passwd"] ∧
    (contentDirSegs ["home", "user"]).isPrefixOf
      (resolveContentPath ["home", "user"] "../../../../../etc/passwd") = false ∧
    (contentGet
      (fun p => if p = ["etc", "passwd"] then some "root:x:0:0" else none)
      ["home", "user"] "../../../../../etc/passwd").status = 200 ∧
    (contentGet
      (fun p => if p = ["etc", "passwd"] then some "root:x:0:0" else none)
      ["home", "user"] "../../../../../etc/passwd").content = some "root:x:0:0" := by
  decide
